import Mathlib

/-!
Verification of the call-session engine of the `call-me` repository against its
specification.  The definitions below are shallow embeddings of the functions in
`src/server/src/audio-utils.ts` and `src/server/src/phone-call.ts`; machine integers
are modelled as `Nat`/`Int` with explicit wrapping where the JS semantics require it,
stateful code as explicit state passing, and fallible code as `Except`/`Option`.
-/

namespace CallMe

/-! ## Audio codec (`audio-utils.ts`) -/

/-- Embedding of the exponent-search loop in `pcmToMuLawSample`
(`for (let expMask = 0x4000; (pcm & expMask) === 0 && exponent > 0; exponent--)`):
the first fuel argument is the remaining `exponent`, the second the current mask. -/
def muLawExponentLoop (pcm : Nat) : Nat → Nat → Nat
  | 0, _ => 0
  | e + 1, mask => if pcm &&& mask = 0 then muLawExponentLoop pcm e (mask >>> 1) else e + 1

/-- Embedding of `pcmToMuLawSample` from `audio-utils.ts`: G.711 mu-law encode with
bias 0x84 and clip at 32635.  JS `(pcm >> 8) & 0x80` (arithmetic shift of the 32-bit
value, then masking bit 7 of two's complement) is modelled by floor division
(`Int.ediv`) and masking the low byte; `~v & 0xff` on the byte `v` is `v ^^^ 0xff`. -/
def pcmToMuLawSample (pcm : Int) : Nat :=
  let sign : Nat := ((pcm.ediv 256).emod 256).toNat &&& 0x80
  let mag : Int := if sign ≠ 0 then -pcm else pcm
  let clipped : Int := if mag > 32635 then 32635 else mag
  let biased : Nat := (clipped + 0x84).toNat
  let exponent : Nat := muLawExponentLoop biased 7 0x4000
  let mantissa : Nat := (biased >>> (exponent + 3)) &&& 0x0f
  (sign ||| (exponent <<< 4) ||| mantissa) ^^^ 0xff

/-- Embedding of `muLawToPcmSample` from `audio-utils.ts` (decode; used for tests). -/
def muLawToPcmSample (muLaw : Nat) : Int :=
  let b : Nat := (muLaw &&& 0xff) ^^^ 0xff
  let sign : Nat := b &&& 0x80
  let exponent : Nat := (b >>> 4) &&& 0x07
  let mantissa : Nat := b &&& 0x0f
  let sample : Int := ((((mantissa <<< 3) + 0x84) <<< exponent : Nat) : Int) - 0x84
  if sign ≠ 0 then -sample else sample

/-- `Buffer.readInt16LE`: little-endian signed 16-bit read at byte offset `off`
(buffers are byte lists; a read past the end yields the 0 default, which the
embedded functions never rely on for in-range indices). -/
def readInt16LE (buf : List Nat) (off : Nat) : Int :=
  let v := buf.getD off 0 + 256 * buf.getD (off + 1) 0
  if v < 32768 then (v : Int) else (v : Int) - 65536

/-- `Buffer.writeInt16LE`: the two little-endian bytes of a 16-bit value. -/
def writeInt16LE (v : Int) : List Nat :=
  let u := (v.emod 65536).toNat
  [u % 256, u / 256]

/-- `Math.round(x / 3)` for an integer `x`: JS `Math.round` is `⌊x/3 + 1/2⌋`. -/
def jsRoundDiv3 (x : Int) : Int := (2 * x + 3).ediv 6

/-- Output sample `i` of `resample24kTo8k` in `audio-utils.ts`: the rounded mean of
input samples `3i, 3i+1, 3i+2`.  The JS guards `baseIdx + k < inputSamples` compare
against the possibly fractional `pcmData.length / 2`, modelled as
`2 * (baseIdx + k) < length`. -/
def resampleSampleAt (pcmData : List Nat) (i : Nat) : Int :=
  let baseIdx := i * 3
  let s0 := readInt16LE pcmData (baseIdx * 2)
  let s1 := if 2 * (baseIdx + 1) < pcmData.length then
    readInt16LE pcmData ((baseIdx + 1) * 2) else s0
  let s2 := if 2 * (baseIdx + 2) < pcmData.length then
    readInt16LE pcmData ((baseIdx + 2) * 2) else s1
  jsRoundDiv3 (s0 + s1 + s2)

/-- Embedding of the exported `resample24kTo8k` from `audio-utils.ts`
(`outputSamples = Math.floor(inputSamples / 3)` with `inputSamples = length / 2`);
the output buffer is the concatenation of the 16-bit samples in order. -/
def resample24kTo8k (pcmData : List Nat) : List Nat :=
  (List.range (pcmData.length / 2 / 3)).flatMap fun i => writeInt16LE (resampleSampleAt pcmData i)

/-- Embedding of the exported `pcmToMuLaw` from `audio-utils.ts`: one mu-law byte per
16-bit little-endian sample. -/
def pcmToMuLaw (pcmData : List Nat) : List Nat :=
  (List.range (pcmData.length / 2)).map fun i => pcmToMuLawSample (readInt16LE pcmData (i * 2))

/-! ## Constants (`phone-call.ts`, `AUDIO_CONSTANTS` / `TIMEOUT_CONSTANTS`) -/

/-- `AUDIO_CONSTANTS.CHUNK_SIZE_BYTES`: 20 ms at 8 kHz mu-law. -/
def CHUNK_SIZE_BYTES : Nat := 160

/-- `AUDIO_CONSTANTS.CHUNK_SEND_DELAY_MS`. -/
def CHUNK_SEND_DELAY_MS : Nat := 20

/-- `AUDIO_CONSTANTS.POST_AUDIO_DELAY_MS`. -/
def POST_AUDIO_DELAY_MS : Nat := 200

/-- `AUDIO_CONSTANTS.JITTER_BUFFER_MS`. -/
def JITTER_BUFFER_MS : Nat := 100

/-- `AUDIO_CONSTANTS.SAMPLES_PER_RESAMPLE`. -/
def SAMPLES_PER_RESAMPLE : Nat := 6

/-- `TIMEOUT_CONSTANTS.WS_CONNECTION_TIMEOUT_MS`. -/
def WS_CONNECTION_TIMEOUT_MS : Nat := 15000

/-- `TIMEOUT_CONSTANTS.HANGUP_CHECK_INTERVAL_MS`. -/
def HANGUP_CHECK_INTERVAL_MS : Nat := 100

/-! ## Session state (`phone-call.ts`, `interface CallState`) -/

/-- `WebSocket.readyState`; the engine only ever tests for `OPEN`. -/
inductive WsReadyState
  | connecting
  | opened
  | closing
  | closed
deriving DecidableEq, Repr

/-- Conversation history speaker tags (`'claude' | 'user'`). -/
inductive Speaker
  | claude
  | user
deriving DecidableEq, Repr

/-- Embedding of the `CallState` record of `phone-call.ts`.  The `ws` handle is
tracked by its ready state (`none` = the `null` handle), the STT session handle by
whether one is attached, and the hangup-watcher interval by its timer id. -/
structure CallState where
  callId : String
  callControlId : Option String
  userPhoneNumber : String
  ws : Option WsReadyState
  streamSid : Option String
  streamingReady : Bool
  wsToken : String
  conversationHistory : List (Speaker × String)
  startTime : Nat
  hungUp : Bool
  sttSession : Bool
  hangupCheckInterval : Option Nat
deriving DecidableEq, Repr

/-- Association-list maps, standing for the JS `Map`s of `CallManager`. -/
def mapGet {α : Type} (m : List (String × α)) (k : String) : Option α :=
  (m.find? fun p => p.1 == k).map fun p => p.2

/-- `Map.set`: replace any existing binding of `k`, keeping `k`'s binding last. -/
def mapSet {α : Type} (m : List (String × α)) (k : String) (v : α) : List (String × α) :=
  (m.filter fun p => p.1 != k) ++ [(k, v)]

/-- `Map.delete`. -/
def mapDelete {α : Type} (m : List (String × α)) (k : String) : List (String × α) :=
  m.filter fun p => p.1 != k

/-- The mutable maps of `CallManager` (`activeCalls`, `callControlIdToCallId`,
`wsTokenToCallId`) together with the `currentCallId` counter. -/
structure CallManagerState where
  activeCalls : List (String × CallState)
  callControlIdToCallId : List (String × String)
  wsTokenToCallId : List (String × String)
  currentCallId : Nat
deriving DecidableEq, Repr

/-- The engine's error taxonomy, as thrown by `phone-call.ts`. -/
inductive EngineError
  | noSuchSession
  | sttUnavailable
  | callHungUp
  | transcriptTimeout
  | connectionTimeout
  | providerError
deriving DecidableEq, Repr

/-! ## Outbound frames (`CallManager.sendMediaChunk`) -/

/-- The JSON control message written for one outbound frame: `event: 'media'`, the
base-64 payload, and the `streamSid` field that is attached only when the session
holds one. -/
structure MediaMessage where
  event : String
  payload : List Nat
  streamSid : Option String
deriving DecidableEq, Repr

/-- Embedding of `CallManager.sendMediaChunk`: returns the message written to the
carrier WebSocket, or `none` when the early-return guard
(`state.ws?.readyState !== WebSocket.OPEN`) fires. -/
def sendMediaChunk (state : CallState) (audioData : List Nat) : Option MediaMessage :=
  if state.ws ≠ some WsReadyState.opened then none
  else some { event := "media", payload := audioData, streamSid := state.streamSid }

/-- The "streaming-ready" latch of the specification, as polled by
`CallManager.waitForConnection`: `state.streamSid || state.streamingReady`. -/
def streamReady (state : CallState) : Bool :=
  state.streamSid.isSome || state.streamingReady

/-- The full readiness condition polled by `CallManager.waitForConnection`:
the session exists, its WebSocket is `OPEN`, and the streaming-ready latch holds. -/
def connectionReady (mgr : CallManagerState) (callId : String) : Bool :=
  match mapGet mgr.activeCalls callId with
  | some st => (st.ws == some WsReadyState.opened) && streamReady st
  | none => false

/-- The polling loop of `CallManager.waitForConnection`
(`while (Date.now() - startTime < timeout) { check; sleep 100 }`), discretised to
100 ms ticks: `ready k` is the condition at the poll at time `100·k` ms, and the
fuel is the number of polls that fit strictly inside the timeout window. -/
def waitForConnectionLoop (ready : Nat → Bool) : Nat → Nat → Except EngineError Unit
  | _, 0 => Except.error EngineError.connectionTimeout
  | k, fuel + 1 =>
    if ready k then Except.ok () else waitForConnectionLoop ready (k + 1) fuel

/-- Embedding of `CallManager.waitForConnection` over a schedule of manager states
(one per 100 ms poll; the state evolves concurrently under webhook handlers). -/
def waitForConnection (states : Nat → CallManagerState) (callId : String) :
    Except EngineError Unit :=
  waitForConnectionLoop (fun k => connectionReady (states k) callId) 0
    (WS_CONNECTION_TIMEOUT_MS / HANGUP_CHECK_INTERVAL_MS)

/-! ## Cleanup (`CallManager.cleanupCallState`) -/

/-- Embedding of `CallManager.cleanupCallState`: clear the hangup-watcher interval,
close the STT session and the WebSocket, and remove the session from the token
index, the carrier-handle index and the live-session map.  Returns the new manager
state and the released session record. -/
def cleanupCallState (mgr : CallManagerState) (state : CallState) :
    CallManagerState × CallState :=
  let state' : CallState :=
    { state with
      hangupCheckInterval := none
      sttSession := false
      ws := state.ws.map fun _ => WsReadyState.closed }
  ({ mgr with
      activeCalls := mapDelete mgr.activeCalls state.callId
      callControlIdToCallId :=
        match state.callControlId with
        | some cc => mapDelete mgr.callControlIdToCallId cc
        | none => mgr.callControlIdToCallId
      wsTokenToCallId := mapDelete mgr.wsTokenToCallId state.wsToken },
   state')

/-! ## The listen-phase race (`CallManager.listen` / `CallManager.waitForHangup`) -/

/-- Active periodic timers; `nextId` is the id `setInterval` hands out next. -/
structure TimerState where
  nextId : Nat
  active : List Nat
deriving DecidableEq, Repr

/-- `clearInterval`. -/
def clearTimer (ts : TimerState) (id : Nat) : TimerState :=
  { ts with active := ts.active.erase id }

/-- `setInterval`: allocates a fresh timer id. -/
def setTimer (ts : TimerState) : Nat × TimerState :=
  (ts.nextId, { nextId := ts.nextId + 1, active := ts.active ++ [ts.nextId] })

/-- How the `Promise.race` in `CallManager.listen` resolved: the transcript side
produced a transcript, the transcript side rejected (timeout or provider error), or
the hangup watcher's interval observed the hangup flag first. -/
inductive RaceOutcome
  | transcript (text : String)
  | transcriptError (e : EngineError)
  | hangupDetected
deriving DecidableEq, Repr

/-- The `finally` block of `CallManager.listen`: clear `state.hangupCheckInterval`
if it is still set, and null the field. -/
def listenFinally (state : CallState) (ts : TimerState) : CallState × TimerState :=
  match state.hangupCheckInterval with
  | some id => ({ state with hangupCheckInterval := none }, clearTimer ts id)
  | none => (state, ts)

/-- Embedding of `CallManager.listen`.  `outcome` is how the race between
`waitForTranscript` and `waitForHangup` resolved, and `hungUpAtCheck` is the value
of the (concurrently mutated) `state.hungUp` flag at the `if (state.hungUp)` check
that runs after the race.  Mirrors in order: the STT-availability check, the
interval registration of `waitForHangup` (clearing any stale interval first), the
race, the post-race hangup check, and the `finally` cleanup on every path. -/
def listen (state : CallState) (ts : TimerState) (outcome : RaceOutcome)
    (hungUpAtCheck : Bool) : Except EngineError String × CallState × TimerState :=
  if state.sttSession = false then
    (Except.error EngineError.sttUnavailable, state, ts)
  else
    let ts0 :=
      match state.hangupCheckInterval with
      | some old => clearTimer ts old
      | none => ts
    let alloc := setTimer ts0
    let st1 : CallState := { state with hangupCheckInterval := some alloc.1 }
    let ts1 := alloc.2
    match outcome with
    | RaceOutcome.hangupDetected =>
      -- the interval callback clears itself and nulls the field before rejecting
      let st2 : CallState := { st1 with hangupCheckInterval := none }
      let ts2 := clearTimer ts1 alloc.1
      let fin := listenFinally st2 ts2
      (Except.error EngineError.callHungUp, fin.1, fin.2)
    | RaceOutcome.transcriptError e =>
      let fin := listenFinally st1 ts1
      (Except.error e, fin.1, fin.2)
    | RaceOutcome.transcript t =>
      let fin := listenFinally st1 ts1
      if hungUpAtCheck then (Except.error EngineError.callHungUp, fin.1, fin.2)
      else (Except.ok t, fin.1, fin.2)

/-! ## Media-stream upgrade authentication (`CallManager.startServer`) -/

/-- Modelled from the spec: `validateWebSocketToken` lives in `webhook-security.ts`,
which is absent from the sources (only its test file is present).  The spec requires
a constant-time comparison of the received token against the session's stored token
with an absent token rejected; timing is not observable in this embedding, so the
comparison is modelled as string equality. -/
def validateWebSocketToken (stored : String) (received : Option String) : Bool :=
  match received with
  | none => false
  | some r => r == stored

/-- Result of an HTTP upgrade at `/media-stream`. -/
inductive UpgradeResult
  | rejected401
  | accepted (callId : String)
deriving DecidableEq, Repr

/-- The fallback branch of the `/media-stream` upgrade handler, taken when the
token is missing or not found in the index: only with `allowUnsignedWebhooks` does
it accept (binding to the most recent active call, or a placeholder id); otherwise
it rejects with 401. -/
def mediaStreamUpgradeFallback (mgr : CallManagerState) (allowUnsignedWebhooks : Bool)
    (now : Nat) : UpgradeResult :=
  if allowUnsignedWebhooks then
    match mgr.activeCalls.getLast? with
    | some p => UpgradeResult.accepted p.1
    | none => UpgradeResult.accepted ("pending-" ++ toString now)
  else UpgradeResult.rejected401

/-- Embedding of the `/media-stream` upgrade handler in `CallManager.startServer`:
look the `token` query parameter up in `wsTokenToCallId`; if both token and call id
are present (`if (token && callId)`), validate against the stored token of the live
session (401 on failure or missing session); otherwise (`else if (!callId)`) take
the fallback branch. -/
def handleMediaStreamUpgrade (mgr : CallManagerState) (allowUnsignedWebhooks : Bool)
    (token : Option String) (now : Nat) : UpgradeResult :=
  match token with
  | none => mediaStreamUpgradeFallback mgr allowUnsignedWebhooks now
  | some t =>
    match mapGet mgr.wsTokenToCallId t with
    | none => mediaStreamUpgradeFallback mgr allowUnsignedWebhooks now
    | some callId =>
      match mapGet mgr.activeCalls callId with
      | none => UpgradeResult.rejected401
      | some st =>
        if validateWebSocketToken st.wsToken (some t) then UpgradeResult.accepted callId
        else UpgradeResult.rejected401

/-- The `connection` handler after a successful upgrade: bind the accepted WebSocket
to the session record (`state.ws = ws`). -/
def bindUpgradedSocket (mgr : CallManagerState) (callId : String) : CallManagerState :=
  match mapGet mgr.activeCalls callId with
  | some st =>
    { mgr with activeCalls := mapSet mgr.activeCalls callId { st with ws := some WsReadyState.opened } }
  | none => mgr

/-! ## `initiateCall` / `continueCall` / `speakOnly` -/

/-- The externally visible effects of the success path of `CallManager.initiateCall`,
in program order. -/
inductive InitStep
  | sttCreate
  | sttConnect
  | tokenGenerate
  | insertActiveCalls
  | placeCall
  | insertCallControlIndex
  | insertTokenIndex
  | startTtsPregeneration
  | waitForConnectionStep
  | sendAudio
  | listenStep
  | appendHistory
deriving DecidableEq, Repr, BEq

/-- The ordered effect trace of `CallManager.initiateCall` (success path), read off
the body of `initiateCall` in `phone-call.ts`. -/
def initiateCallTrace : List InitStep :=
  [InitStep.sttCreate, InitStep.sttConnect, InitStep.tokenGenerate,
   InitStep.insertActiveCalls, InitStep.placeCall, InitStep.insertCallControlIndex,
   InitStep.insertTokenIndex, InitStep.startTtsPregeneration,
   InitStep.waitForConnectionStep, InitStep.sendAudio, InitStep.listenStep,
   InitStep.appendHistory]

/-- Embedding of `CallManager.initiateCall` as a state function.  The outcomes of
the awaited external operations (STT connect, carrier place-call, the connection
wait, TTS pre-generation, and `listen`) enter as parameters; `wsToken` is the
generated random token and `startTime` the `Date.now()` stamp.  Returns the tool
result (or propagated error) together with the manager state after the call, the
`catch` block running `cleanupCallState` on every failure past session insertion. -/
def initiateCall (mgr : CallManagerState) (userPhoneNumber message wsToken : String)
    (startTime : Nat) (sttConnect : Except EngineError Unit)
    (placeResult : Except EngineError String) (connectResult : Except EngineError Unit)
    (ttsResult : Except EngineError (List Nat)) (listenOutcome : Except EngineError String) :
    Except EngineError (String × String) × CallManagerState :=
  let callId := "call-" ++ toString (mgr.currentCallId + 1) ++ "-" ++ toString startTime
  let mgr0 := { mgr with currentCallId := mgr.currentCallId + 1 }
  match sttConnect with
  | Except.error e => (Except.error e, mgr0)
  | Except.ok () =>
    let state : CallState :=
      { callId := callId, callControlId := none, userPhoneNumber := userPhoneNumber,
        ws := none, streamSid := none, streamingReady := false, wsToken := wsToken,
        conversationHistory := [], startTime := startTime, hungUp := false,
        sttSession := true, hangupCheckInterval := none }
    let mgr1 := { mgr0 with activeCalls := mapSet mgr0.activeCalls callId state }
    match placeResult with
    | Except.error e => (Except.error e, (cleanupCallState mgr1 state).1)
    | Except.ok callControlId =>
      let state2 := { state with callControlId := some callControlId }
      let mgr2 :=
        { mgr1 with
          activeCalls := mapSet mgr1.activeCalls callId state2
          callControlIdToCallId := mapSet mgr1.callControlIdToCallId callControlId callId
          wsTokenToCallId := mapSet mgr1.wsTokenToCallId wsToken callId }
      match connectResult with
      | Except.error e => (Except.error e, (cleanupCallState mgr2 state2).1)
      | Except.ok () =>
        match ttsResult with
        | Except.error e => (Except.error e, (cleanupCallState mgr2 state2).1)
        | Except.ok _audio =>
          match listenOutcome with
          | Except.error e => (Except.error e, (cleanupCallState mgr2 state2).1)
          | Except.ok response =>
            let state3 :=
              { state2 with conversationHistory :=
                  state2.conversationHistory ++
                    [(Speaker.claude, message), (Speaker.user, response)] }
            (Except.ok (callId, response),
             { mgr2 with activeCalls := mapSet mgr2.activeCalls callId state3 })

/-- Embedding of `CallManager.continueCall`: look the session up (`NoSuchSession` on
a missing id), speak, listen, then append the two history entries in order. -/
def continueCall (mgr : CallManagerState) (callId message : String)
    (speakOutcome : Except EngineError Unit) (listenOutcome : Except EngineError String) :
    Except EngineError String × CallManagerState :=
  match mapGet mgr.activeCalls callId with
  | none => (Except.error EngineError.noSuchSession, mgr)
  | some st =>
    match speakOutcome with
    | Except.error e => (Except.error e, mgr)
    | Except.ok () =>
      match listenOutcome with
      | Except.error e => (Except.error e, mgr)
      | Except.ok response =>
        let st' :=
          { st with conversationHistory :=
              st.conversationHistory ++
                [(Speaker.claude, message), (Speaker.user, response)] }
        (Except.ok response, { mgr with activeCalls := mapSet mgr.activeCalls callId st' })

/-- Embedding of `CallManager.speakOnly`: look up, speak, append one history entry. -/
def speakOnly (mgr : CallManagerState) (callId message : String)
    (speakOutcome : Except EngineError Unit) :
    Except EngineError Unit × CallManagerState :=
  match mapGet mgr.activeCalls callId with
  | none => (Except.error EngineError.noSuchSession, mgr)
  | some st =>
    match speakOutcome with
    | Except.error e => (Except.error e, mgr)
    | Except.ok () =>
      let st' :=
        { st with conversationHistory :=
            st.conversationHistory ++ [(Speaker.claude, message)] }
      (Except.ok (), { mgr with activeCalls := mapSet mgr.activeCalls callId st' })

/-! ## The streaming-TTS outbound pacer (`CallManager.speakStreaming`) -/

/-- Observable pacer actions: a `sendMediaChunk` invocation and the
`setTimeout`-based inter-frame delay. -/
inductive PacerEvent
  | send (bytes : List Nat)
  | sleep (ms : Nat)
deriving DecidableEq, Repr

/-- `jitterBufferSize = (8000 / 1000) * JITTER_BUFFER_MS` from `speakStreaming`. -/
def jitterBufferSize : Nat := (8000 / 1000) * JITTER_BUFFER_MS

/-- The `drainBuffer` helper of `speakStreaming`: send full `CHUNK_SIZE_BYTES`
frames with a `CHUNK_SEND_DELAY_MS` sleep after each, returning the emitted events
and the remaining (under-sized) buffer. -/
def drainBuffer (buf : List Nat) : List PacerEvent × List Nat :=
  if h : CHUNK_SIZE_BYTES ≤ buf.length then
    let rest := drainBuffer (buf.drop CHUNK_SIZE_BYTES)
    (PacerEvent.send (buf.take CHUNK_SIZE_BYTES) :: PacerEvent.sleep CHUNK_SEND_DELAY_MS ::
      rest.1, rest.2)
  else ([], buf)
termination_by buf.length
decreasing_by
  simp only [List.length_drop]
  simp only [CHUNK_SIZE_BYTES] at h ⊢
  omega

/-- The loop state of `speakStreaming`: the two pending byte buffers, the
`playbackStarted` latch, and the events emitted so far. -/
structure PacerState where
  pendingPcm : List Nat
  pendingMuLaw : List Nat
  playbackStarted : Bool
  events : List PacerEvent
deriving DecidableEq, Repr

/-- One iteration of the `for await (const chunk of synthesizeStream(text))` loop of
`speakStreaming`: append the chunk, process complete 6-byte resample units into
mu-law, hold transmission until the jitter buffer has filled, then drain. -/
def processChunk (st : PacerState) (chunk : List Nat) : PacerState :=
  let pendingPcm := st.pendingPcm ++ chunk
  let completeUnits := pendingPcm.length / SAMPLES_PER_RESAMPLE
  if completeUnits > 0 then
    let bytesToProcess := completeUnits * SAMPLES_PER_RESAMPLE
    let toProcess := pendingPcm.take bytesToProcess
    let pendingPcm' := pendingPcm.drop bytesToProcess
    let muLaw := pcmToMuLaw (resample24kTo8k toProcess)
    let pendingMuLaw := st.pendingMuLaw ++ muLaw
    if st.playbackStarted = false ∧ pendingMuLaw.length < jitterBufferSize then
      { pendingPcm := pendingPcm', pendingMuLaw := pendingMuLaw,
        playbackStarted := st.playbackStarted, events := st.events }
    else
      let d := drainBuffer pendingMuLaw
      { pendingPcm := pendingPcm', pendingMuLaw := d.2, playbackStarted := true,
        events := st.events ++ d.1 }
  else
    { st with pendingPcm := pendingPcm }

/-- The initial pacer state of `speakStreaming`. -/
def initialPacerState : PacerState :=
  { pendingPcm := [], pendingMuLaw := [], playbackStarted := false, events := [] }

/-- Embedding of `CallManager.speakStreaming` as its emitted event sequence: process
every TTS chunk, then drain the remainder, then send one final under-sized frame if
bytes remain. -/
def speakStreamingEvents (chunks : List (List Nat)) : List PacerEvent :=
  let st := chunks.foldl processChunk initialPacerState
  let d := drainBuffer st.pendingMuLaw
  st.events ++ d.1 ++ (if d.2.length > 0 then [PacerEvent.send d.2] else [])

/-- Structural pacing check on an event list: every frame except possibly the last
is exactly `CHUNK_SIZE_BYTES` long and is followed by a `CHUNK_SEND_DELAY_MS`
sleep before the next frame; a final frame may be shorter (never longer). -/
def pacerOk : List PacerEvent → Bool
  | [] => true
  | [PacerEvent.send b] => b.length ≤ CHUNK_SIZE_BYTES
  | PacerEvent.send b :: PacerEvent.sleep t :: rest =>
    b.length = CHUNK_SIZE_BYTES && t = CHUNK_SEND_DELAY_MS && pacerOk rest
  | _ => false

/-- Number of frames sent in an event list. -/
def sendCount (evs : List PacerEvent) : Nat :=
  evs.countP fun e => match e with | PacerEvent.send _ => true | _ => false

/-- An event list consisting solely of full `CHUNK_SIZE_BYTES` frames, each followed
by its `CHUNK_SEND_DELAY_MS` sleep. -/
def fullPaced : List PacerEvent → Bool
  | [] => true
  | PacerEvent.send b :: PacerEvent.sleep t :: rest =>
    b.length = CHUNK_SIZE_BYTES && t = CHUNK_SEND_DELAY_MS && fullPaced rest
  | _ => false

/-- Total mu-law bytes accumulated by the pacer: bytes already framed out plus the
bytes still buffered. -/
def pacerTotal (st : PacerState) : Nat :=
  CHUNK_SIZE_BYTES * sendCount st.events + st.pendingMuLaw.length

end CallMe

namespace CallMe

/-! ## Lemmas about the mu-law codec -/

lemma land_two_pow_eq_zero_iff (n k : Nat) : n &&& 2 ^ k = 0 ↔ n / 2 ^ k % 2 = 0 := by
  rw [Nat.and_two_pow, Nat.testBit_to_div_mod]
  rcases Nat.mod_two_eq_zero_or_one (n / 2 ^ k) with h | h
  · simp [h]
  · simp [h, (Nat.two_pow_pos k).ne']

lemma land_top_bit_low {b k : Nat} (hb : b < 2 ^ (k + 1)) (h : b &&& 2 ^ k = 0) :
    b < 2 ^ k := by
  have h2 := (land_two_pow_eq_zero_iff b k).mp h
  have hd : b / 2 ^ k < 2 := Nat.div_lt_of_lt_mul (by rw [pow_succ] at hb; omega)
  have h0 : b / 2 ^ k = 0 := by
    generalize b / 2 ^ k = q at h2 hd
    omega
  exact (Nat.div_eq_zero_iff (Nat.two_pow_pos k)).mp h0

lemma land_top_bit_high {b k : Nat} (h : b &&& 2 ^ k ≠ 0) : 2 ^ k ≤ b := by
  have h2 : ¬ (b / 2 ^ k % 2 = 0) := fun hc => h ((land_two_pow_eq_zero_iff b k).mpr hc)
  have h1 : 1 ≤ b / 2 ^ k := by
    generalize b / 2 ^ k = q at h2
    omega
  exact (Nat.one_le_div_iff (Nat.two_pow_pos k)).mp h1

/-- The exponent loop, started with fuel `e+1` and mask `2^(e+8)`, returns a segment
index `r ≤ e+1` with `b < 2^(r+8)`, and `2^(r+7) ≤ b` whenever `r ≠ 0`. -/
lemma expLoop_bounds : ∀ e b : Nat, b < 2 ^ (e + 9) →
    muLawExponentLoop b (e + 1) (2 ^ (e + 8)) ≤ e + 1 ∧
    b < 2 ^ (muLawExponentLoop b (e + 1) (2 ^ (e + 8)) + 8) ∧
    (muLawExponentLoop b (e + 1) (2 ^ (e + 8)) ≠ 0 →
      2 ^ (muLawExponentLoop b (e + 1) (2 ^ (e + 8)) + 7) ≤ b) := by
  intro e
  induction e with
  | zero =>
    intro b hb
    by_cases h : b &&& 2 ^ 8 = 0
    · have hb8 : b < 2 ^ 8 := land_top_bit_low hb h
      have hL : muLawExponentLoop b 1 (2 ^ 8) = 0 := by
        rw [muLawExponentLoop, if_pos h]; rfl
      rw [hL]
      exact ⟨by omega, by simpa using hb8, fun hc => absurd rfl hc⟩
    · have hb8 : 2 ^ 8 ≤ b := land_top_bit_high h
      have hL : muLawExponentLoop b 1 (2 ^ 8) = 1 := by
        rw [muLawExponentLoop, if_neg h]
      rw [hL]
      exact ⟨le_refl _, by simpa using hb, fun _ => by simpa using hb8⟩
  | succ e ih =>
    intro b hb
    have hmask : (2 ^ (e + 1 + 8)) >>> 1 = 2 ^ (e + 8) := by
      rw [Nat.shiftRight_eq_div_pow, pow_one,
        show e + 1 + 8 = (e + 8) + 1 from by omega, pow_succ]
      exact Nat.mul_div_cancel _ (by norm_num)
    have hunfold : muLawExponentLoop b (e + 1 + 1) (2 ^ (e + 1 + 8)) =
        if b &&& 2 ^ (e + 1 + 8) = 0 then muLawExponentLoop b (e + 1) (2 ^ (e + 8))
        else e + 1 + 1 := by
      rw [muLawExponentLoop, hmask]
    by_cases h : b &&& 2 ^ (e + 1 + 8) = 0
    · have hblt : b < 2 ^ (e + 9) := by
        have := land_top_bit_low (k := e + 1 + 8)
          (by rw [show e + 1 + 8 + 1 = e + 1 + 9 from by omega]; exact hb) h
        rwa [show e + 1 + 8 = e + 9 from by omega] at this
      rw [hunfold, if_pos h]
      obtain ⟨ih1, ih2, ih3⟩ := ih b hblt
      exact ⟨by omega, ih2, ih3⟩
    · have hge : 2 ^ (e + 1 + 8) ≤ b := land_top_bit_high h
      rw [hunfold, if_neg h]
      refine ⟨le_refl _, ?_, fun _ => ?_⟩
      · rwa [show e + 1 + 1 + 8 = e + 1 + 9 from by omega]
      · rwa [show e + 1 + 1 + 7 = e + 1 + 8 from by omega]

lemma byte_lor : ∀ s, s < 2 → ∀ r, r < 8 → ∀ m, m < 16 →
    ((s * 128) ||| (r <<< 4) ||| m) = s * 128 + 16 * r + m := by decide

lemma decode_byte : ∀ s, s < 2 → ∀ r, r < 8 → ∀ m, m < 16 →
    muLawToPcmSample ((s * 128 + 16 * r + m) ^^^ 255) =
      (if s = 1 then (-1 : Int) else 1) * ((8 * m + 132) * 2 ^ r - 132) := by decide

/-- The JS sign extraction `(pcm >> 8) & 0x80` equals `0x80` exactly on negative
16-bit inputs. -/
lemma jsSignBit_eq (x : Int) (h1 : -32768 ≤ x) (h2 : x ≤ 32767) :
    ((x.ediv 256).emod 256).toNat &&& 0x80 = if x < 0 then 128 else 0 := by
  have hdm : 256 * (x.ediv 256) + x.emod 256 = x := Int.ediv_add_emod x 256
  have hm0 : 0 ≤ x.emod 256 := Int.emod_nonneg x (by norm_num)
  have hm1 : x.emod 256 < 256 := Int.emod_lt_of_pos x (by norm_num)
  set d := x.ediv 256 with hd
  have hdm2 : 256 * (d.ediv 256) + d.emod 256 = d := Int.ediv_add_emod d 256
  have hm0' : 0 ≤ d.emod 256 := Int.emod_nonneg d (by norm_num)
  have hm1' : d.emod 256 < 256 := Int.emod_lt_of_pos d (by norm_num)
  set v := (d.emod 256).toNat with hv
  have hvv : (v : Int) = d.emod 256 := Int.toNat_of_nonneg hm0'
  have hl : v &&& 128 = v / 128 % 2 * 128 := by
    rw [show (128 : Nat) = 2 ^ 7 from rfl, Nat.and_two_pow, Nat.testBit_to_div_mod]
    rcases Nat.mod_two_eq_zero_or_one (v / 128) with h | h <;> simp [h]
  show v &&& 128 = _
  rw [hl]
  by_cases hneg : x < 0
  · have : v / 128 % 2 = 1 := by omega
    simp [hneg, this]
  · have : v / 128 % 2 = 0 := by omega
    simp [hneg, this]

/-- Characterisation of the mu-law encoder: the produced byte is the inverted
`sign | exponent | mantissa` composition, where the biased clipped magnitude sits in
the segment `[(m+16)·2^(r+3), (m+17)·2^(r+3))`. -/
lemma pcmToMuLawSample_char (x : Int) (h1 : -32768 ≤ x) (h2 : x ≤ 32767) :
    ∃ s r m rem : Nat, s < 2 ∧ r < 8 ∧ m < 16 ∧
      pcmToMuLawSample x = (s * 128 + 16 * r + m) ^^^ 255 ∧
      (s = 1 ↔ x < 0) ∧
      min x.natAbs 32635 + 132 = (m + 16) * 2 ^ (r + 3) + rem ∧
      rem < 2 ^ (r + 3) ∧
      (8 * m + 132) * 2 ^ r = (m + 16) * 2 ^ (r + 3) + 4 * 2 ^ r ∧
      16 * 2 ^ (r + 3) ≤ min x.natAbs 32635 + 132 ∧
      min x.natAbs 32635 + 132 < 32 * 2 ^ (r + 3) := by
  set a := x.natAbs with ha
  set b := min a 32635 + 132 with hbdef
  have hb132 : 132 ≤ b := by omega
  have hb15 : b < 2 ^ (6 + 9) := by norm_num; omega
  obtain ⟨hr1, hr2, hr3⟩ := expLoop_bounds 6 b hb15
  norm_num at hr1 hr2 hr3
  have hs := jsSignBit_eq x h1 h2
  have hlow : 16 * 2 ^ (muLawExponentLoop b 7 16384 + 3) ≤ b := by
    rcases Nat.eq_zero_or_pos (muLawExponentLoop b 7 16384) with h0 | hpos
    · rw [h0]; norm_num; omega
    · have h3 := hr3 (by omega)
      have he : (2 : Nat) ^ (muLawExponentLoop b 7 16384 + 7) =
          16 * 2 ^ (muLawExponentLoop b 7 16384 + 3) := by
        rw [show muLawExponentLoop b 7 16384 + 7 = 4 + (muLawExponentLoop b 7 16384 + 3)
          from by omega, pow_add]
        norm_num
      omega
  have hhigh : b < 32 * 2 ^ (muLawExponentLoop b 7 16384 + 3) := by
    have he : (2 : Nat) ^ (muLawExponentLoop b 7 16384 + 8) =
        32 * 2 ^ (muLawExponentLoop b 7 16384 + 3) := by
      rw [show muLawExponentLoop b 7 16384 + 8 = 5 + (muLawExponentLoop b 7 16384 + 3)
        from by omega, pow_add]
      norm_num
    omega
  have hq16 : 16 ≤ b / 2 ^ (muLawExponentLoop b 7 16384 + 3) :=
    (Nat.le_div_iff_mul_le (Nat.two_pow_pos _)).mpr hlow
  have hq32 : b / 2 ^ (muLawExponentLoop b 7 16384 + 3) < 32 :=
    Nat.div_lt_of_lt_mul (by omega)
  have hbias : ((if (if (if x < 0 then (128 : Nat) else 0) ≠ 0 then -x else x) > 32635
      then (32635 : Int)
      else (if (if x < 0 then (128 : Nat) else 0) ≠ 0 then -x else x)) + 132).toNat = b := by
    split_ifs <;> omega
  have hmant : (b >>> (muLawExponentLoop b 7 16384 + 3)) &&& 15 =
      b / 2 ^ (muLawExponentLoop b 7 16384 + 3) % 16 := by
    rw [Nat.shiftRight_eq_div_pow, show (15 : Nat) = 2 ^ 4 - 1 from by norm_num,
      Nat.and_pow_two_sub_one_eq_mod]
  refine ⟨if x < 0 then 1 else 0, muLawExponentLoop b 7 16384,
    b / 2 ^ (muLawExponentLoop b 7 16384 + 3) % 16,
    b % 2 ^ (muLawExponentLoop b 7 16384 + 3),
    ?_, by omega, ?_, ?_, ?_, ?_, ?_, ?_, hlow, hhigh⟩
  · split_ifs <;> omega
  · exact Nat.mod_lt _ (by norm_num)
  · show pcmToMuLawSample x = _
    simp only [pcmToMuLawSample]
    rw [hs, hbias, hmant]
    have hsval : (if x < 0 then (128 : Nat) else 0) = (if x < 0 then 1 else 0) * 128 := by
      split_ifs <;> norm_num
    rw [hsval, byte_lor (if x < 0 then 1 else 0) (by split_ifs <;> omega)
      (muLawExponentLoop b 7 16384) (by omega)
      (b / 2 ^ (muLawExponentLoop b 7 16384 + 3) % 16) (Nat.mod_lt _ (by norm_num))]
  · split_ifs with h
    · simp [h]
    · simp [h]
  · have hm16 : b / 2 ^ (muLawExponentLoop b 7 16384 + 3) % 16 + 16 =
        b / 2 ^ (muLawExponentLoop b 7 16384 + 3) := by
      generalize b / 2 ^ (muLawExponentLoop b 7 16384 + 3) = q at hq16 hq32 ⊢
      omega
    rw [hm16]
    exact (Nat.div_add_mod b (2 ^ (muLawExponentLoop b 7 16384 + 3))).symm.trans
      (by rw [Nat.mul_comm])
  · exact Nat.mod_lt _ (Nat.two_pow_pos _)
  · generalize b / 2 ^ (muLawExponentLoop b 7 16384 + 3) % 16 = m
    generalize muLawExponentLoop b 7 16384 = r
    rw [show r + 3 = 3 + r from by omega, pow_add]
    ring

/-- C2: for every 16-bit signed input, the mu-law round trip error is within
`0.15·|x| + 100` (stated scaled by 100 to stay in integers). -/
theorem muLaw_roundTrip_bound (x : Int) (h1 : -32768 ≤ x) (h2 : x ≤ 32767) :
    100 * |muLawToPcmSample (pcmToMuLawSample x) - x| ≤ 15 * |x| + 10000 := by
  obtain ⟨s, r, m, rem, hs2, hr8, hm16, hbyte, hsiff, hsum, hrem, hkey, hlow, hhigh⟩ :=
    pcmToMuLawSample_char x h1 h2
  rw [hbyte, decode_byte s hs2 r hr8 m hm16]
  set a := x.natAbs with ha
  obtain ⟨u, hu⟩ : ∃ u, (2 : Nat) ^ r = u := ⟨_, rfl⟩
  obtain ⟨p, hp⟩ : ∃ p, (2 : Nat) ^ (r + 3) = p := ⟨_, rfl⟩
  have hpu : p = 8 * u := by
    rw [← hu, ← hp, show r + 3 = 3 + r from by omega, pow_add]
    norm_num
  obtain ⟨T, hT⟩ : ∃ T, (m + 16) * p = T := ⟨_, rfl⟩
  obtain ⟨V, hV⟩ : ∃ V, (8 * m + 132) * u = V := ⟨_, rfl⟩
  have hu1 : 1 ≤ u := hu ▸ Nat.one_le_two_pow
  rw [hp, hT] at hsum
  rw [hp] at hrem
  rw [hp, hT] at hkey
  rw [hu, hV] at hkey
  rw [hp] at hlow hhigh
  have hcast : (8 * m + 132) * 2 ^ r = V := by rw [hu, hV]
  have hVint : (8 * (m : Int) + 132) * (2 : Int) ^ r = ((V : Nat) : Int) := by
    rw [← hcast]
    push_cast
    ring
  rw [hVint]
  have habs : |x| = (a : Int) := by rw [Int.abs_eq_natAbs]
  rw [habs]
  have haub : a ≤ 32768 := by omega
  rcases (by omega : s = 0 ∨ s = 1) with hs0 | hs1
  · subst hs0
    have hxpos : ¬ x < 0 := fun hc => by simp at hsiff; omega
    have hxa : x = (a : Int) := by omega
    norm_num
    rw [hxa]
    rcases abs_cases ((V : Int) - 132 - (a : Int)) with ⟨hab, _⟩ | ⟨hab, _⟩ <;> rw [hab] <;>
      omega
  · subst hs1
    have hxneg : x < 0 := hsiff.mp rfl
    have hxa : x = -(a : Int) := by omega
    norm_num
    rw [hxa]
    rcases abs_cases ((132 : Int) - (V : Int) - -(a : Int)) with ⟨hab, _⟩ | ⟨hab, _⟩ <;>
      rw [hab] <;> omega

/-- Witness for `muLaw_roundTrip_bound` at the concrete input `x = 1000`. -/
theorem muLaw_roundTrip_bound_witness :
    (-32768 : Int) ≤ 1000 ∧ (1000 : Int) ≤ 32767 ∧
    100 * |muLawToPcmSample (pcmToMuLawSample 1000) - 1000| ≤ 15 * |(1000 : Int)| + 10000 :=
  ⟨by decide, by decide, muLaw_roundTrip_bound 1000 (by decide) (by decide)⟩

end CallMe

namespace CallMe

/-! ## Lemmas about the resampler -/

lemma flatMap_pair_getD (f : Nat → List Nat) (h : ∀ a, (f a).length = 2) :
    ∀ (l : List Nat) (i : Nat) (d : Nat), i < l.length →
      (l.flatMap f).getD (2 * i) d = (f (l.getD i 0)).getD 0 d ∧
      (l.flatMap f).getD (2 * i + 1) d = (f (l.getD i 0)).getD 1 d := by
  intro l
  induction l with
  | nil => intro i d hi; simp at hi
  | cons a t ih =>
    intro i d hi
    obtain ⟨b0, b1, hfa⟩ : ∃ b0 b1, f a = [b0, b1] := by
      have := h a
      match hl : f a with
      | [b0, b1] => exact ⟨b0, b1, rfl⟩
      | [] => rw [hl] at this; simp at this
      | [b] => rw [hl] at this; simp at this
      | b0 :: b1 :: c :: t => rw [hl] at this; simp at this
    cases i with
    | zero => simp [List.flatMap_cons, hfa]
    | succ j =>
      have hj : j < t.length := by simpa using hi
      have hrec := ih j d hj
      constructor
      · have : 2 * (j + 1) = 2 * j + 1 + 1 := by omega
        rw [this]
        simpa [List.flatMap_cons, hfa] using hrec.1
      · have : 2 * (j + 1) + 1 = 2 * j + 1 + 1 + 1 := by omega
        rw [this]
        simpa [List.flatMap_cons, hfa] using hrec.2

lemma flatMap_pair_length (f : Nat → List Nat) (h : ∀ a, (f a).length = 2) :
    ∀ l : List Nat, (l.flatMap f).length = 2 * l.length := by
  intro l
  induction l with
  | nil => simp
  | cons a t ih => simp [List.flatMap_cons, ih, h a]; omega

lemma resample_length (pcmData : List Nat) :
    (resample24kTo8k pcmData).length = pcmData.length / 6 * 2 := by
  rw [resample24kTo8k,
    flatMap_pair_length (fun i => writeInt16LE (resampleSampleAt pcmData i)) (fun a => rfl),
    List.length_range, Nat.div_div_eq_div_mul]
  omega

lemma getD_byte_lt (buf : List Nat) (hb : ∀ x ∈ buf, x < 256) : ∀ n, buf.getD n 0 < 256 := by
  induction buf with
  | nil => intro n; simp
  | cons a t ih =>
    intro n
    cases n with
    | zero => exact hb a (List.mem_cons_self a t)
    | succ j => exact ih (fun x hx => hb x (List.mem_cons_of_mem a hx)) j

lemma readInt16LE_bounds (buf : List Nat) (hb : ∀ x ∈ buf, x < 256) (off : Nat) :
    -32768 ≤ readInt16LE buf off ∧ readInt16LE buf off ≤ 32767 := by
  have h0 := getD_byte_lt buf hb off
  have h1 := getD_byte_lt buf hb (off + 1)
  simp only [readInt16LE]
  split_ifs <;> constructor <;> omega

lemma jsRoundDiv3_bounds (x : Int) (h1 : -98304 ≤ x) (h2 : x ≤ 98301) :
    -32768 ≤ jsRoundDiv3 x ∧ jsRoundDiv3 x ≤ 32767 := by
  unfold jsRoundDiv3
  have hdm : 6 * ((2 * x + 3).ediv 6) + (2 * x + 3).emod 6 = 2 * x + 3 :=
    Int.ediv_add_emod _ 6
  have hm0 : 0 ≤ (2 * x + 3).emod 6 := Int.emod_nonneg _ (by norm_num)
  have hm1 : (2 * x + 3).emod 6 < 6 := Int.emod_lt_of_pos _ (by norm_num)
  omega

lemma resampleSampleAt_bounds (pcmData : List Nat) (hb : ∀ x ∈ pcmData, x < 256) (i : Nat) :
    -32768 ≤ resampleSampleAt pcmData i ∧ resampleSampleAt pcmData i ≤ 32767 := by
  simp only [resampleSampleAt]
  have h0 := readInt16LE_bounds pcmData hb (i * 3 * 2)
  have h1 := readInt16LE_bounds pcmData hb ((i * 3 + 1) * 2)
  have h2 := readInt16LE_bounds pcmData hb ((i * 3 + 2) * 2)
  apply jsRoundDiv3_bounds <;> split_ifs <;> omega

lemma readInt16LE_congr (buf1 buf2 : List Nat) (off1 off2 : Nat)
    (h0 : buf1.getD off1 0 = buf2.getD off2 0)
    (h1 : buf1.getD (off1 + 1) 0 = buf2.getD (off2 + 1) 0) :
    readInt16LE buf1 off1 = readInt16LE buf2 off2 := by
  simp only [readInt16LE, h0, h1]

lemma write_read (v : Int) (h1 : -32768 ≤ v) (h2 : v ≤ 32767) :
    readInt16LE (writeInt16LE v) 0 = v := by
  have hdm : 65536 * (v.ediv 65536) + v.emod 65536 = v := Int.ediv_add_emod v 65536
  have hm0 : 0 ≤ v.emod 65536 := Int.emod_nonneg v (by norm_num)
  have hm1 : v.emod 65536 < 65536 := Int.emod_lt_of_pos v (by norm_num)
  simp only [readInt16LE, writeInt16LE, List.getD_cons_zero, List.getD_cons_succ]
  split_ifs <;> omega

lemma resample_sample (pcmData : List Nat) (hb : ∀ x ∈ pcmData, x < 256)
    (i : Nat) (hi : i < pcmData.length / 6) :
    readInt16LE (resample24kTo8k pcmData) (2 * i) =
      jsRoundDiv3 (readInt16LE pcmData (6 * i) + readInt16LE pcmData (6 * i + 2) +
        readInt16LE pcmData (6 * i + 4)) := by
  have h6 : pcmData.length / 6 * 6 ≤ pcmData.length := Nat.div_mul_le_self _ _
  have h6i : (i + 1) * 6 ≤ pcmData.length / 6 * 6 := Nat.mul_le_mul_right _ (by omega)
  have hi' : i < pcmData.length / 2 / 3 := by rw [Nat.div_div_eq_div_mul]; exact hi
  have hrange : i < (List.range (pcmData.length / 2 / 3)).length := by simpa using hi'
  have hbridge := flatMap_pair_getD (fun j => writeInt16LE (resampleSampleAt pcmData j))
    (fun a => rfl) (List.range (pcmData.length / 2 / 3)) i 0 hrange
  have hgetd : (List.range (pcmData.length / 2 / 3)).getD i 0 = i := by
    rw [List.getD_eq_getElem?_getD, List.getElem?_range hi']
    rfl
  rw [hgetd] at hbridge
  have hout : readInt16LE (resample24kTo8k pcmData) (2 * i) =
      readInt16LE (writeInt16LE (resampleSampleAt pcmData i)) 0 := by
    apply readInt16LE_congr
    · exact hbridge.1
    · exact hbridge.2
  rw [hout]
  obtain ⟨hS1, hS2⟩ := resampleSampleAt_bounds pcmData hb i
  rw [write_read _ hS1 hS2]
  simp only [resampleSampleAt]
  rw [if_pos (by omega : 2 * (i * 3 + 1) < pcmData.length),
    if_pos (by omega : 2 * (i * 3 + 2) < pcmData.length),
    show i * 3 * 2 = 6 * i from by ring,
    show (i * 3 + 1) * 2 = 6 * i + 2 from by ring,
    show (i * 3 + 2) * 2 = 6 * i + 4 from by ring]

/-- C8: `resample24kTo8k` emits exactly `⌊length/6⌋ · 2` output bytes (a trailing
partial triple is discarded, with no failure possible), and output sample `i` is the
rounded arithmetic mean of input samples `3i, 3i+1, 3i+2` (the last conjunct states
that it is within rounding distance of the exact mean: `|3·out − (s0+s1+s2)| ≤ 3/2`). -/
theorem resample_length_and_mean (pcmData : List Nat) (hb : ∀ x ∈ pcmData, x < 256) :
    (resample24kTo8k pcmData).length = pcmData.length / 6 * 2 ∧
    ∀ i, i < pcmData.length / 6 →
      readInt16LE (resample24kTo8k pcmData) (2 * i) =
        jsRoundDiv3 (readInt16LE pcmData (6 * i) + readInt16LE pcmData (6 * i + 2) +
          readInt16LE pcmData (6 * i + 4)) ∧
      2 * |3 * readInt16LE (resample24kTo8k pcmData) (2 * i) -
          (readInt16LE pcmData (6 * i) + readInt16LE pcmData (6 * i + 2) +
            readInt16LE pcmData (6 * i + 4))| ≤ 3 := by
  refine ⟨resample_length pcmData, fun i hi => ⟨resample_sample pcmData hb i hi, ?_⟩⟩
  rw [resample_sample pcmData hb i hi]
  set S := readInt16LE pcmData (6 * i) + readInt16LE pcmData (6 * i + 2) +
    readInt16LE pcmData (6 * i + 4) with hS
  have hdm : 6 * ((2 * S + 3).ediv 6) + (2 * S + 3).emod 6 = 2 * S + 3 :=
    Int.ediv_add_emod _ 6
  have hm0 : 0 ≤ (2 * S + 3).emod 6 := Int.emod_nonneg _ (by norm_num)
  have hm1 : (2 * S + 3).emod 6 < 6 := Int.emod_lt_of_pos _ (by norm_num)
  rw [jsRoundDiv3]
  rcases abs_cases (3 * (2 * S + 3).ediv 6 - S) with ⟨hab, _⟩ | ⟨hab, _⟩ <;> rw [hab] <;> omega

/-- Witness for `resample_length_and_mean` on a concrete 7-byte buffer: the trailing
byte is discarded, and the single output sample is the mean of samples 16, 32, 48. -/
theorem resample_length_and_mean_witness :
    (∀ x ∈ ([16, 0, 32, 0, 48, 0, 255] : List Nat), x < 256) ∧
    (resample24kTo8k [16, 0, 32, 0, 48, 0, 255]).length =
      ([16, 0, 32, 0, 48, 0, 255] : List Nat).length / 6 * 2 ∧
    readInt16LE (resample24kTo8k [16, 0, 32, 0, 48, 0, 255]) (2 * 0) =
      jsRoundDiv3 (readInt16LE [16, 0, 32, 0, 48, 0, 255] (6 * 0) +
        readInt16LE [16, 0, 32, 0, 48, 0, 255] (6 * 0 + 2) +
        readInt16LE [16, 0, 32, 0, 48, 0, 255] (6 * 0 + 4)) :=
  ⟨by decide,
   (resample_length_and_mean [16, 0, 32, 0, 48, 0, 255] (by decide)).1,
   ((resample_length_and_mean [16, 0, 32, 0, 48, 0, 255] (by decide)).2 0 (by decide)).1⟩

end CallMe

namespace CallMe

/-! ## Outbound frame guard (`sendMediaChunk`) -/

/-- C1 (counterexample): `sendMediaChunk` writes a frame for a session whose
streaming-ready latch is false and whose media-stream sub-identifier has never been
captured — the WebSocket being open is the only guard. -/
theorem sendMediaChunk_latch_counterexample :
    (sendMediaChunk
      { callId := "call-1-0", callControlId := none, userPhoneNumber := "+15550100",
        ws := some WsReadyState.opened, streamSid := none, streamingReady := false,
        wsToken := "tok", conversationHistory := [], startTime := 0, hungUp := false,
        sttSession := true, hangupCheckInterval := none } [0]).isSome = true ∧
    streamReady
      { callId := "call-1-0", callControlId := none, userPhoneNumber := "+15550100",
        ws := some WsReadyState.opened, streamSid := none, streamingReady := false,
        wsToken := "tok", conversationHistory := [], startTime := 0, hungUp := false,
        sttSession := true, hangupCheckInterval := none } = false := by
  decide

/-- C1 (amended): an outbound frame is written exactly when the WebSocket is open;
the media-stream sub-identifier is attached to the message whenever the session
holds one, but neither it nor the streaming-ready latch is a per-frame
precondition. -/
theorem sendMediaChunk_guard (state : CallState) (audioData : List Nat) :
    ((sendMediaChunk state audioData).isSome = true ↔ state.ws = some WsReadyState.opened) ∧
    (∀ msg, sendMediaChunk state audioData = some msg →
      msg.event = "media" ∧ msg.payload = audioData ∧ msg.streamSid = state.streamSid) := by
  constructor
  · by_cases h : state.ws = some WsReadyState.opened <;> simp [sendMediaChunk, h]
  · intro msg hmsg
    by_cases h : state.ws = some WsReadyState.opened
    · simp only [sendMediaChunk, h, ne_eq, not_true_eq_false, if_neg,
        Option.some.injEq, not_false_eq_true, if_false] at hmsg
      rw [← hmsg]
      exact ⟨rfl, rfl, rfl⟩
    · simp [sendMediaChunk, h] at hmsg

/-- Witness for `sendMediaChunk_guard` at a concrete open session. -/
theorem sendMediaChunk_guard_witness :
    (sendMediaChunk
      { callId := "call-2-0", callControlId := some "CA9", userPhoneNumber := "+15550100",
        ws := some WsReadyState.opened, streamSid := some "MZ1", streamingReady := false,
        wsToken := "tok2", conversationHistory := [], startTime := 0, hungUp := false,
        sttSession := true, hangupCheckInterval := none } [7]).isSome = true ∧
    ({ event := "media", payload := [7], streamSid := some "MZ1" } : MediaMessage).streamSid =
      some "MZ1" :=
  ⟨(sendMediaChunk_guard
      { callId := "call-2-0", callControlId := some "CA9", userPhoneNumber := "+15550100",
        ws := some WsReadyState.opened, streamSid := some "MZ1", streamingReady := false,
        wsToken := "tok2", conversationHistory := [], startTime := 0, hungUp := false,
        sttSession := true, hangupCheckInterval := none } [7]).1.mpr rfl,
   ((sendMediaChunk_guard
      { callId := "call-2-0", callControlId := some "CA9", userPhoneNumber := "+15550100",
        ws := some WsReadyState.opened, streamSid := some "MZ1", streamingReady := false,
        wsToken := "tok2", conversationHistory := [], startTime := 0, hungUp := false,
        sttSession := true, hangupCheckInterval := none } [7]).2
      { event := "media", payload := [7], streamSid := some "MZ1" } (by decide)).2.2⟩

/-! ## The listen-phase race -/

/-- C3: `listen` never returns a transcript while the hangup flag is set.  The flag
is only ever set, never reset (`hmono` records this monotonicity); if it is set on
entry or by the time of the post-race check, the transcript is discarded and the
call-hung-up error is reported, both when the hangup watcher wins the race and when
the transcript side wins. -/
theorem listen_never_returns_during_hangup (state : CallState) (ts : TimerState)
    (outcome : RaceOutcome) (hungUpAtCheck : Bool)
    (hmono : state.hungUp = true → hungUpAtCheck = true)
    (hset : state.hungUp = true ∨ hungUpAtCheck = true) :
    (∀ t, (listen state ts outcome hungUpAtCheck).1 ≠ Except.ok t) ∧
    (state.sttSession = true → ∀ t, outcome = RaceOutcome.transcript t →
      (listen state ts outcome hungUpAtCheck).1 = Except.error EngineError.callHungUp) ∧
    (state.sttSession = true → outcome = RaceOutcome.hangupDetected →
      (listen state ts outcome hungUpAtCheck).1 = Except.error EngineError.callHungUp) := by
  have hck : hungUpAtCheck = true := by
    rcases hset with h | h
    · exact hmono h
    · exact h
  subst hck
  by_cases hstt : state.sttSession = false
  · simp [listen, hstt]
  · have hstt' : state.sttSession = true := by
      revert hstt; cases state.sttSession <;> simp
    cases outcome <;> simp [listen, hstt', listenFinally]

/-- Witness for `listen_never_returns_during_hangup`: hung-up session, transcript
side wins, the call-hung-up error is still reported. -/
theorem listen_never_returns_during_hangup_witness :
    ({ callId := "call-3-0", callControlId := none, userPhoneNumber := "+15550100",
       ws := none, streamSid := none, streamingReady := false, wsToken := "tok3",
       conversationHistory := [], startTime := 0, hungUp := true, sttSession := true,
       hangupCheckInterval := none } : CallState).hungUp = true ∧
    (listen
      { callId := "call-3-0", callControlId := none, userPhoneNumber := "+15550100",
        ws := none, streamSid := none, streamingReady := false, wsToken := "tok3",
        conversationHistory := [], startTime := 0, hungUp := true, sttSession := true,
        hangupCheckInterval := none } { nextId := 0, active := [] }
      (RaceOutcome.transcript "hi") true).1 = Except.error EngineError.callHungUp :=
  ⟨rfl,
   (listen_never_returns_during_hangup
      { callId := "call-3-0", callControlId := none, userPhoneNumber := "+15550100",
        ws := none, streamSid := none, streamingReady := false, wsToken := "tok3",
        conversationHistory := [], startTime := 0, hungUp := true, sttSession := true,
        hangupCheckInterval := none } { nextId := 0, active := [] }
      (RaceOutcome.transcript "hi") true (fun _ => rfl) (Or.inl rfl)).2.1 rfl "hi" rfl⟩

lemma append_singleton_erase (l : List Nat) (a : Nat) (h : a ∉ l) : (l ++ [a]).erase a = l := by
  rw [List.erase_append_right _ h, List.erase_cons_head, List.append_nil]

/-- C6: on every return path of `listen` — transcript received, transcript timeout,
or hangup — the session's `hangupCheckInterval` field is null on return, and every
timer still active afterwards was already active before the call: the watcher's
interval is never leaked. -/
theorem listen_clears_hangup_watcher (state : CallState) (ts : TimerState)
    (outcome : RaceOutcome) (hungUpAtCheck : Bool)
    (hstt : state.sttSession = true) (hfresh : ts.nextId ∉ ts.active) :
    (listen state ts outcome hungUpAtCheck).2.1.hangupCheckInterval = none ∧
    (∀ id ∈ (listen state ts outcome hungUpAtCheck).2.2.active, id ∈ ts.active) := by
  have hsub0 : ∀ id ∈ (match state.hangupCheckInterval with
      | some old => clearTimer ts old
      | none => ts).active, id ∈ ts.active := by
    cases state.hangupCheckInterval with
    | none => intro id hid; exact hid
    | some old => intro id hid; exact List.mem_of_mem_erase hid
  have hfresh0 : ts.nextId ∉ (match state.hangupCheckInterval with
      | some old => clearTimer ts old
      | none => ts).active := fun hc => hfresh (hsub0 _ hc)
  have hact : (listen state ts outcome hungUpAtCheck).2.2.active =
      ((match state.hangupCheckInterval with
        | some old => clearTimer ts old
        | none => ts).active ++ [ts.nextId]).erase ts.nextId := by
    cases hold : state.hangupCheckInterval <;> cases outcome <;> cases hungUpAtCheck <;>
      simp [listen, hstt, hold, setTimer, clearTimer, listenFinally]
  constructor
  · cases hold : state.hangupCheckInterval <;> cases outcome <;> cases hungUpAtCheck <;>
      simp [listen, hstt, hold, setTimer, clearTimer, listenFinally]
  · intro id hid
    rw [hact, append_singleton_erase _ _ hfresh0] at hid
    exact hsub0 _ hid

/-- Witness for `listen_clears_hangup_watcher` at a concrete state and timer pool. -/
theorem listen_clears_hangup_watcher_witness :
    ({ callId := "call-4-0", callControlId := none, userPhoneNumber := "+15550100",
       ws := none, streamSid := none, streamingReady := false, wsToken := "tok4",
       conversationHistory := [], startTime := 0, hungUp := false, sttSession := true,
       hangupCheckInterval := none } : CallState).sttSession = true ∧
    (5 : Nat) ∉ ([1, 2] : List Nat) ∧
    (listen
      { callId := "call-4-0", callControlId := none, userPhoneNumber := "+15550100",
        ws := none, streamSid := none, streamingReady := false, wsToken := "tok4",
        conversationHistory := [], startTime := 0, hungUp := false, sttSession := true,
        hangupCheckInterval := none } { nextId := 5, active := [1, 2] }
      (RaceOutcome.transcript "ok") false).2.1.hangupCheckInterval = none :=
  ⟨rfl, by decide,
   (listen_clears_hangup_watcher
      { callId := "call-4-0", callControlId := none, userPhoneNumber := "+15550100",
        ws := none, streamSid := none, streamingReady := false, wsToken := "tok4",
        conversationHistory := [], startTime := 0, hungUp := false, sttSession := true,
        hangupCheckInterval := none } { nextId := 5, active := [1, 2] }
      (RaceOutcome.transcript "ok") false rfl (by decide)).1⟩

end CallMe

namespace CallMe

/-! ## Map lemmas -/

lemma find?_filter_ne_key {α : Type} (m : List (String × α)) (k : String) :
    List.find? (fun p => p.1 == k) (List.filter (fun p => p.1 != k) m) = none := by
  apply List.find?_eq_none.mpr
  intro x hx
  have hmem := (List.mem_filter.mp hx).2
  simp only [bne_iff_ne, ne_eq, decide_not] at hmem
  simp only [beq_iff_eq]
  simpa using hmem

lemma mapGet_set_self {α : Type} (m : List (String × α)) (k : String) (v : α) :
    mapGet (mapSet m k v) k = some v := by
  unfold mapGet mapSet
  rw [List.find?_append, find?_filter_ne_key]
  simp

lemma mapGet_set_ne {α : Type} (m : List (String × α)) (k : String) (v : α) (k' : String)
    (h : k' ≠ k) : mapGet (mapSet m k v) k' = mapGet m k' := by
  have hfind : ∀ t : List (String × α),
      List.find? (fun p => p.1 == k') (List.filter (fun p => p.1 != k) t) =
        List.find? (fun p => p.1 == k') t := by
    intro t
    have hkk' : (k == k') = false := by
      simp only [beq_eq_false_iff_ne, ne_eq]
      exact Ne.symm h
    induction t with
    | nil => rfl
    | cons a t ih =>
      by_cases hak : a.1 = k
      · simp [List.filter_cons, hak, List.find?_cons, hkk', ih]
      · by_cases hak' : a.1 = k'
        · simp [List.filter_cons, hak, List.find?_cons, hak', h, ih]
        · simp [List.filter_cons, hak, List.find?_cons, hak', ih]
  unfold mapGet mapSet
  rw [List.find?_append, hfind]
  have hone : List.find? (fun p => p.1 == k') [(k, v)] = none := by
    have hkk' : (k == k') = false := by
      simp only [beq_eq_false_iff_ne, ne_eq]
      exact Ne.symm h
    simp [List.find?_cons, hkk']
  rw [hone]
  cases List.find? (fun p => p.1 == k') m <;> rfl

lemma mapGet_delete_self {α : Type} (m : List (String × α)) (k : String) :
    mapGet (mapDelete m k) k = none := by
  unfold mapGet mapDelete
  rw [find?_filter_ne_key]
  rfl

lemma mapGet_delete_ne {α : Type} (m : List (String × α)) (k k' : String) (h : k' ≠ k) :
    mapGet (mapDelete m k) k' = mapGet m k' := by
  have hfind : ∀ t : List (String × α),
      List.find? (fun p => p.1 == k') (List.filter (fun p => p.1 != k) t) =
        List.find? (fun p => p.1 == k') t := by
    intro t
    have hkk' : (k == k') = false := by
      simp only [beq_eq_false_iff_ne, ne_eq]
      exact Ne.symm h
    induction t with
    | nil => rfl
    | cons a t ih =>
      by_cases hak : a.1 = k
      · simp [List.filter_cons, hak, List.find?_cons, hkk', ih]
      · by_cases hak' : a.1 = k'
        · simp [List.filter_cons, hak, List.find?_cons, hak', h, ih]
        · simp [List.filter_cons, hak, List.find?_cons, hak', ih]
  unfold mapGet mapDelete
  rw [hfind]

end CallMe

namespace CallMe

/-! ## Media-stream upgrade authentication -/

/-- C4: with `allowUnsignedWebhooks` off, a `/media-stream` upgrade is rejected with
401 whenever the token query parameter is absent, unknown to the token index, or
fails comparison against the indexed session's stored token (including a stale
index entry whose session is gone); when it matches, the upgrade is accepted for
exactly that session and binding attaches the open WebSocket to that session's
record, leaving every other session untouched. -/
theorem upgrade_token_auth (mgr : CallManagerState) (token : Option String) (now : Nat) :
    (token = none →
      handleMediaStreamUpgrade mgr false token now = UpgradeResult.rejected401) ∧
    (∀ t, token = some t → mapGet mgr.wsTokenToCallId t = none →
      handleMediaStreamUpgrade mgr false token now = UpgradeResult.rejected401) ∧
    (∀ t cid, token = some t → mapGet mgr.wsTokenToCallId t = some cid →
      mapGet mgr.activeCalls cid = none →
      handleMediaStreamUpgrade mgr false token now = UpgradeResult.rejected401) ∧
    (∀ t cid st, token = some t → mapGet mgr.wsTokenToCallId t = some cid →
      mapGet mgr.activeCalls cid = some st → st.wsToken ≠ t →
      handleMediaStreamUpgrade mgr false token now = UpgradeResult.rejected401) ∧
    (∀ t cid st, token = some t → mapGet mgr.wsTokenToCallId t = some cid →
      mapGet mgr.activeCalls cid = some st → st.wsToken = t →
      handleMediaStreamUpgrade mgr false token now = UpgradeResult.accepted cid ∧
      mapGet (bindUpgradedSocket mgr cid).activeCalls cid =
        some { st with ws := some WsReadyState.opened } ∧
      ∀ cid', cid' ≠ cid →
        mapGet (bindUpgradedSocket mgr cid).activeCalls cid' = mapGet mgr.activeCalls cid') := by
  refine ⟨?_, ?_, ?_, ?_, ?_⟩
  · intro h
    subst h
    simp [handleMediaStreamUpgrade, mediaStreamUpgradeFallback]
  · intro t h hlook
    subst h
    simp [handleMediaStreamUpgrade, mediaStreamUpgradeFallback, hlook]
  · intro t cid h hlook hst
    subst h
    simp [handleMediaStreamUpgrade, hlook, hst]
  · intro t cid st h hlook hst hne
    subst h
    have hval : validateWebSocketToken st.wsToken (some t) = false := by
      simp [validateWebSocketToken]
      exact fun hc => hne hc.symm
    simp [handleMediaStreamUpgrade, hlook, hst, hval]
  · intro t cid st h hlook hst heq
    subst h
    have hval : validateWebSocketToken st.wsToken (some t) = true := by
      simp [validateWebSocketToken, heq]
    refine ⟨by simp [handleMediaStreamUpgrade, hlook, hst, hval], ?_, ?_⟩
    · simp [bindUpgradedSocket, hst, mapGet_set_self]
    · intro cid' hne
      simp [bindUpgradedSocket, hst, mapGet_set_ne _ _ _ _ hne]

/-- Witness for `upgrade_token_auth`: a matching token is accepted and bound to the
right session. -/
theorem upgrade_token_auth_witness :
    mapGet ([("sek", "call-5-1")] : List (String × String)) "sek" = some "call-5-1" ∧
    handleMediaStreamUpgrade
      { activeCalls := [("call-5-1",
          { callId := "call-5-1", callControlId := none, userPhoneNumber := "+15550100",
            ws := none, streamSid := none, streamingReady := false, wsToken := "sek",
            conversationHistory := [], startTime := 0, hungUp := false, sttSession := true,
            hangupCheckInterval := none })],
        callControlIdToCallId := [], wsTokenToCallId := [("sek", "call-5-1")],
        currentCallId := 1 } false (some "sek") 0 = UpgradeResult.accepted "call-5-1" :=
  ⟨by decide,
   ((upgrade_token_auth
      { activeCalls := [("call-5-1",
          { callId := "call-5-1", callControlId := none, userPhoneNumber := "+15550100",
            ws := none, streamSid := none, streamingReady := false, wsToken := "sek",
            conversationHistory := [], startTime := 0, hungUp := false, sttSession := true,
            hangupCheckInterval := none })],
        callControlIdToCallId := [], wsTokenToCallId := [("sek", "call-5-1")],
        currentCallId := 1 } (some "sek") 0).2.2.2.2 "sek" "call-5-1"
      { callId := "call-5-1", callControlId := none, userPhoneNumber := "+15550100",
        ws := none, streamSid := none, streamingReady := false, wsToken := "sek",
        conversationHistory := [], startTime := 0, hungUp := false, sttSession := true,
        hangupCheckInterval := none } rfl (by decide) (by decide) rfl).1⟩

end CallMe

namespace CallMe

/-! ## Ordering of effects in `initiateCall` -/

/-- C5 (counterexample): in `initiateCall`, the carrier place-call happens before
the token-index insertion, and the STT session is opened before the session record
is inserted into the live-session map — contradicting the claimed step-1 ordering. -/
theorem initiate_insert_order_counterexample :
    initiateCallTrace.indexOf InitStep.placeCall <
      initiateCallTrace.indexOf InitStep.insertTokenIndex ∧
    initiateCallTrace.indexOf InitStep.sttConnect <
      initiateCallTrace.indexOf InitStep.insertActiveCalls := by decide

/-- C5 (amended): in `initiateCall`, the session record is inserted into the
live-session map after the STT session is opened and the token generated, but
before the carrier is asked to place the call; the token-index (and carrier-handle)
insertion happens only after the carrier call returns, before TTS pre-generation
and the connection wait. -/
theorem initiate_insert_order :
    initiateCallTrace.indexOf InitStep.sttConnect <
      initiateCallTrace.indexOf InitStep.insertActiveCalls ∧
    initiateCallTrace.indexOf InitStep.tokenGenerate <
      initiateCallTrace.indexOf InitStep.insertActiveCalls ∧
    initiateCallTrace.indexOf InitStep.insertActiveCalls <
      initiateCallTrace.indexOf InitStep.placeCall ∧
    initiateCallTrace.indexOf InitStep.placeCall <
      initiateCallTrace.indexOf InitStep.insertCallControlIndex ∧
    initiateCallTrace.indexOf InitStep.insertCallControlIndex <
      initiateCallTrace.indexOf InitStep.insertTokenIndex ∧
    initiateCallTrace.indexOf InitStep.insertTokenIndex <
      initiateCallTrace.indexOf InitStep.startTtsPregeneration ∧
    initiateCallTrace.indexOf InitStep.startTtsPregeneration <
      initiateCallTrace.indexOf InitStep.waitForConnectionStep := by decide

/-! ## Connection wait and cleanup -/

lemma waitForConnectionLoop_error_iff (ready : Nat → Bool) :
    ∀ (fuel k : Nat),
      (waitForConnectionLoop ready k fuel = Except.error EngineError.connectionTimeout ↔
        ∀ j, j < fuel → ready (k + j) = false) := by
  intro fuel
  induction fuel with
  | zero => intro k; simp [waitForConnectionLoop]
  | succ n ih =>
    intro k
    constructor
    · intro hres j hj
      unfold waitForConnectionLoop at hres
      by_cases h : ready k = true
      · rw [if_pos h] at hres
        exact absurd hres (by simp)
      · have hk : ready k = false := by revert h; cases ready k <;> simp
        rw [if_neg (by simp [hk])] at hres
        rcases Nat.eq_zero_or_pos j with rfl | hpos
        · simpa using hk
        · have := (ih (k + 1)).mp hres (j - 1) (by omega)
          rwa [show k + 1 + (j - 1) = k + j from by omega] at this
    · intro hall
      have hk : ready k = false := by simpa using hall 0 (by omega)
      unfold waitForConnectionLoop
      rw [if_neg (by simp [hk])]
      exact (ih (k + 1)).mpr fun j hj => by
        have := hall (j + 1) (by omega)
        rwa [show k + (j + 1) = k + 1 + j from by omega] at this

/-- C7: the engine polls the readiness condition `ws-open ∧ (streamSid ∨
streaming-ready)` at the 100 ms cadence with a 15 s budget — exactly 150 polls —
timing out with the connection-timeout error iff no poll sees the condition; on any
failure of the connection wait, `initiateCall` propagates the error only after
`cleanupCallState` has removed the session from the live map and both indices; and
cleanup closes the STT session and the WebSocket and clears the watcher timer. -/
theorem waitForConnection_timeout_cleanup
    (states : Nat → CallManagerState) (callId : String)
    (mgr : CallManagerState) (userPhone message wsToken : String) (startTime : Nat)
    (cc : String) (tts : Except EngineError (List Nat))
    (lsn : Except EngineError String) (e : EngineError) :
    (WS_CONNECTION_TIMEOUT_MS = 15000 ∧ HANGUP_CHECK_INTERVAL_MS = 100 ∧
      WS_CONNECTION_TIMEOUT_MS / HANGUP_CHECK_INTERVAL_MS = 150) ∧
    (waitForConnection states callId = Except.error EngineError.connectionTimeout ↔
      ∀ k, k < 150 → connectionReady (states k) callId = false) ∧
    ((initiateCall mgr userPhone message wsToken startTime (Except.ok ())
        (Except.ok cc) (Except.error e) tts lsn).1 = Except.error e ∧
      mapGet (initiateCall mgr userPhone message wsToken startTime (Except.ok ())
        (Except.ok cc) (Except.error e) tts lsn).2.activeCalls
        ("call-" ++ toString (mgr.currentCallId + 1) ++ "-" ++ toString startTime) = none ∧
      mapGet (initiateCall mgr userPhone message wsToken startTime (Except.ok ())
        (Except.ok cc) (Except.error e) tts lsn).2.wsTokenToCallId wsToken = none ∧
      mapGet (initiateCall mgr userPhone message wsToken startTime (Except.ok ())
        (Except.ok cc) (Except.error e) tts lsn).2.callControlIdToCallId cc = none) ∧
    (∀ (m : CallManagerState) (st : CallState),
      mapGet (cleanupCallState m st).1.activeCalls st.callId = none ∧
      mapGet (cleanupCallState m st).1.wsTokenToCallId st.wsToken = none ∧
      (cleanupCallState m st).2.sttSession = false ∧
      (cleanupCallState m st).2.hangupCheckInterval = none ∧
      ∀ w, (cleanupCallState m st).2.ws = some w → w = WsReadyState.closed) := by
  refine ⟨⟨rfl, rfl, rfl⟩, ?_, ⟨?_, ?_, ?_, ?_⟩, ?_⟩
  · rw [waitForConnection]
    simpa [WS_CONNECTION_TIMEOUT_MS, HANGUP_CHECK_INTERVAL_MS] using
      waitForConnectionLoop_error_iff (fun k => connectionReady (states k) callId)
        (WS_CONNECTION_TIMEOUT_MS / HANGUP_CHECK_INTERVAL_MS) 0
  · simp [initiateCall]
  · simp [initiateCall, cleanupCallState, mapGet_delete_self]
  · simp [initiateCall, cleanupCallState, mapGet_delete_self]
  · simp [initiateCall, cleanupCallState, mapGet_delete_self]
  · intro m st
    refine ⟨?_, ?_, rfl, rfl, ?_⟩
    · simp [cleanupCallState, mapGet_delete_self]
    · simp [cleanupCallState, mapGet_delete_self]
    · intro w hw
      simp only [cleanupCallState] at hw
      cases hws : st.ws with
      | none => rw [hws] at hw; simp at hw
      | some v => rw [hws] at hw; simp at hw; exact hw.symm

/-- Witness for `waitForConnection_timeout_cleanup`: a schedule that is never ready
times out, and a failed connection wait inside `initiateCall` leaves no session
behind. -/
theorem waitForConnection_timeout_cleanup_witness :
    waitForConnection
      (fun _ => { activeCalls := [], callControlIdToCallId := [], wsTokenToCallId := [],
                  currentCallId := 0 }) "nobody" =
      Except.error EngineError.connectionTimeout ∧
    mapGet (initiateCall
      { activeCalls := [], callControlIdToCallId := [], wsTokenToCallId := [],
        currentCallId := 0 } "+15550100" "hello" "tokW" 0 (Except.ok ())
      (Except.ok "cc1") (Except.error EngineError.connectionTimeout) (Except.ok [])
      (Except.error EngineError.transcriptTimeout)).2.activeCalls "call-1-0" = none :=
  ⟨(waitForConnection_timeout_cleanup
      (fun _ => { activeCalls := [], callControlIdToCallId := [], wsTokenToCallId := [],
                  currentCallId := 0 }) "nobody"
      { activeCalls := [], callControlIdToCallId := [], wsTokenToCallId := [],
        currentCallId := 0 } "+15550100" "hello" "tokW" 0 "cc1" (Except.ok [])
      (Except.error EngineError.transcriptTimeout)
      EngineError.connectionTimeout).2.1.mpr (by decide),
   (waitForConnection_timeout_cleanup
      (fun _ => { activeCalls := [], callControlIdToCallId := [], wsTokenToCallId := [],
                  currentCallId := 0 }) "nobody"
      { activeCalls := [], callControlIdToCallId := [], wsTokenToCallId := [],
        currentCallId := 0 } "+15550100" "hello" "tokW" 0 "cc1" (Except.ok [])
      (Except.error EngineError.transcriptTimeout)
      EngineError.connectionTimeout).2.2.1.2.1⟩

end CallMe

namespace CallMe

/-! ## Conversation-history frame effects -/

/-- C10: a failed conversational turn leaves conversation history unchanged.
`continueCall` appends exactly the two entries (assistant then user) only when both
speak and listen succeed, `speakOnly` appends exactly one assistant entry on
success, and on any thrown error (speak failure, transcript timeout, hangup) the
manager state — hence every session's history — is unchanged.  `initiateCall`
records exactly the two entries of the first turn on success; on failure it either
leaves the live map unchanged (STT-connect failure, before insertion) or removes
the new session entirely. -/
theorem history_frame_effects (mgr : CallManagerState)
    (callId message userPhone wsToken : String) (startTime : Nat)
    (speakOut : Except EngineError Unit) (lsnOut : Except EngineError String)
    (sttC : Except EngineError Unit) (placeR : Except EngineError String)
    (connR : Except EngineError Unit) (ttsR : Except EngineError (List Nat)) :
    (∀ e, (continueCall mgr callId message speakOut lsnOut).1 = Except.error e →
      (continueCall mgr callId message speakOut lsnOut).2 = mgr) ∧
    (∀ resp st, (continueCall mgr callId message speakOut lsnOut).1 = Except.ok resp →
      mapGet mgr.activeCalls callId = some st →
      mapGet (continueCall mgr callId message speakOut lsnOut).2.activeCalls callId =
        some { st with conversationHistory :=
          st.conversationHistory ++ [(Speaker.claude, message), (Speaker.user, resp)] } ∧
      ∀ cid, cid ≠ callId →
        mapGet (continueCall mgr callId message speakOut lsnOut).2.activeCalls cid =
          mapGet mgr.activeCalls cid) ∧
    (∀ e, (speakOnly mgr callId message speakOut).1 = Except.error e →
      (speakOnly mgr callId message speakOut).2 = mgr) ∧
    (∀ st, (speakOnly mgr callId message speakOut).1 = Except.ok () →
      mapGet mgr.activeCalls callId = some st →
      mapGet (speakOnly mgr callId message speakOut).2.activeCalls callId =
        some { st with conversationHistory :=
          st.conversationHistory ++ [(Speaker.claude, message)] } ∧
      ∀ cid, cid ≠ callId →
        mapGet (speakOnly mgr callId message speakOut).2.activeCalls cid =
          mapGet mgr.activeCalls cid) ∧
    (∀ cid resp,
      (initiateCall mgr userPhone message wsToken startTime sttC placeR connR ttsR
        lsnOut).1 = Except.ok (cid, resp) →
      ∃ st, mapGet (initiateCall mgr userPhone message wsToken startTime sttC placeR
          connR ttsR lsnOut).2.activeCalls cid = some st ∧
        st.conversationHistory = [(Speaker.claude, message), (Speaker.user, resp)]) ∧
    (∀ e, (initiateCall mgr userPhone message wsToken startTime sttC placeR connR ttsR
        lsnOut).1 = Except.error e →
      (initiateCall mgr userPhone message wsToken startTime sttC placeR connR ttsR
          lsnOut).2.activeCalls = mgr.activeCalls ∨
      mapGet (initiateCall mgr userPhone message wsToken startTime sttC placeR connR
          ttsR lsnOut).2.activeCalls
        ("call-" ++ toString (mgr.currentCallId + 1) ++ "-" ++ toString startTime) =
          none) := by
  refine ⟨?_, ?_, ?_, ?_, ?_, ?_⟩
  · intro e he
    cases hlook : mapGet mgr.activeCalls callId with
    | none => simp [continueCall, hlook]
    | some st =>
      cases speakOut with
      | error e' => simp [continueCall, hlook]
      | ok u =>
        cases lsnOut with
        | error e' => simp [continueCall, hlook]
        | ok r => simp [continueCall, hlook] at he
  · intro resp st hok hlook
    cases speakOut with
    | error e' => simp [continueCall, hlook] at hok
    | ok u =>
      cases lsnOut with
      | error e' => simp [continueCall, hlook] at hok
      | ok r =>
        have hr : r = resp := by simpa [continueCall, hlook] using hok
        subst hr
        constructor
        · simp [continueCall, hlook, mapGet_set_self]
        · intro cid hne
          simp [continueCall, hlook, mapGet_set_ne _ _ _ _ hne]
  · intro e he
    cases hlook : mapGet mgr.activeCalls callId with
    | none => simp [speakOnly, hlook]
    | some st =>
      cases speakOut with
      | error e' => simp [speakOnly, hlook]
      | ok u => simp [speakOnly, hlook] at he
  · intro st hok hlook
    cases speakOut with
    | error e' => simp [speakOnly, hlook] at hok
    | ok u =>
      constructor
      · simp [speakOnly, hlook, mapGet_set_self]
      · intro cid hne
        simp [speakOnly, hlook, mapGet_set_ne _ _ _ _ hne]
  · intro cid resp hok
    cases sttC with
    | error e' => simp [initiateCall] at hok
    | ok u =>
      cases placeR with
      | error e' => simp [initiateCall] at hok
      | ok cc =>
        cases connR with
        | error e' => simp [initiateCall] at hok
        | ok u' =>
          cases ttsR with
          | error e' => simp [initiateCall] at hok
          | ok audio =>
            cases lsnOut with
            | error e' => simp [initiateCall] at hok
            | ok r =>
              obtain ⟨hcid, hresp⟩ : ("call-" ++ toString (mgr.currentCallId + 1) ++ "-" ++
                  toString startTime) = cid ∧ r = resp := by
                simpa [initiateCall] using hok
              subst hcid
              subst hresp
              simp only [initiateCall, mapGet_set_self]
              exact ⟨_, rfl, rfl⟩
  · intro e he
    cases sttC with
    | error e' => left; simp [initiateCall]
    | ok u =>
      cases placeR with
      | error e' => right; simp [initiateCall, cleanupCallState, mapGet_delete_self]
      | ok cc =>
        cases connR with
        | error e' => right; simp [initiateCall, cleanupCallState, mapGet_delete_self]
        | ok u' =>
          cases ttsR with
          | error e' => right; simp [initiateCall, cleanupCallState, mapGet_delete_self]
          | ok audio =>
            cases lsnOut with
            | error e' => right; simp [initiateCall, cleanupCallState, mapGet_delete_self]
            | ok r => simp [initiateCall] at he

/-- Witness for `history_frame_effects`: a concrete failed turn (transcript timeout)
leaves the manager unchanged. -/
theorem history_frame_effects_witness :
    (continueCall
      { activeCalls := [("call-6-1",
          { callId := "call-6-1", callControlId := none, userPhoneNumber := "+15550100",
            ws := none, streamSid := none, streamingReady := false, wsToken := "tok6",
            conversationHistory := [(Speaker.claude, "hi")], startTime := 0,
            hungUp := false, sttSession := true, hangupCheckInterval := none })],
        callControlIdToCallId := [], wsTokenToCallId := [], currentCallId := 6 }
      "call-6-1" "next" (Except.ok ()) (Except.error EngineError.transcriptTimeout)).2 =
      { activeCalls := [("call-6-1",
          { callId := "call-6-1", callControlId := none, userPhoneNumber := "+15550100",
            ws := none, streamSid := none, streamingReady := false, wsToken := "tok6",
            conversationHistory := [(Speaker.claude, "hi")], startTime := 0,
            hungUp := false, sttSession := true, hangupCheckInterval := none })],
        callControlIdToCallId := [], wsTokenToCallId := [], currentCallId := 6 } :=
  (history_frame_effects
      { activeCalls := [("call-6-1",
          { callId := "call-6-1", callControlId := none, userPhoneNumber := "+15550100",
            ws := none, streamSid := none, streamingReady := false, wsToken := "tok6",
            conversationHistory := [(Speaker.claude, "hi")], startTime := 0,
            hungUp := false, sttSession := true, hangupCheckInterval := none })],
        callControlIdToCallId := [], wsTokenToCallId := [], currentCallId := 6 }
      "call-6-1" "next" "+15550100" "tokX" 0 (Except.ok ())
      (Except.error EngineError.transcriptTimeout) (Except.ok ()) (Except.ok "cc")
      (Except.ok ()) (Except.ok [])).1 EngineError.transcriptTimeout rfl

end CallMe

namespace CallMe

/-! ## The outbound pacer -/

lemma fullPaced_catchall (l : List PacerEvent) (hnil : l = [] → False)
    (hpat : ∀ b t rest, l = PacerEvent.send b :: PacerEvent.sleep t :: rest → False) :
    fullPaced l = false := by
  match l with
  | [] => exact (hnil rfl).elim
  | PacerEvent.send b :: PacerEvent.sleep t :: rest => exact (hpat b t rest rfl).elim
  | PacerEvent.send b :: [] => rfl
  | PacerEvent.send b :: PacerEvent.send c :: r => rfl
  | PacerEvent.sleep m :: r => rfl

lemma fullPaced_append (l1 l2 : List PacerEvent) (h1 : fullPaced l1 = true) :
    fullPaced (l1 ++ l2) = fullPaced l2 := by
  induction l1 using fullPaced.induct with
  | case1 => simp
  | case2 b t rest ih =>
    by_cases hb : b.length = CHUNK_SIZE_BYTES
    · by_cases ht : t = CHUNK_SEND_DELAY_MS
      · have hrest : fullPaced rest = true := by
          simp [fullPaced, hb, ht] at h1
          exact h1
        simp [fullPaced, hb, ht, List.cons_append, ih hrest]
      · simp [fullPaced, hb, ht] at h1
    · simp [fullPaced, hb] at h1
  | case3 l hnil hpat =>
    rw [fullPaced_catchall l hnil hpat] at h1
    cases h1

lemma pacerOk_append (l1 l2 : List PacerEvent) (h1 : fullPaced l1 = true) :
    pacerOk (l1 ++ l2) = pacerOk l2 := by
  induction l1 using fullPaced.induct with
  | case1 => simp
  | case2 b t rest ih =>
    by_cases hb : b.length = CHUNK_SIZE_BYTES
    · by_cases ht : t = CHUNK_SEND_DELAY_MS
      · have hrest : fullPaced rest = true := by
          simp [fullPaced, hb, ht] at h1
          exact h1
        simp [pacerOk, fullPaced, hb, ht, List.cons_append, ih hrest]
      · simp [fullPaced, hb, ht] at h1
    · simp [fullPaced, hb] at h1
  | case3 l hnil hpat =>
    rw [fullPaced_catchall l hnil hpat] at h1
    cases h1

lemma drainBuffer_spec : ∀ (n : Nat) (buf : List Nat), buf.length ≤ n →
    fullPaced (drainBuffer buf).1 = true ∧
    (drainBuffer buf).2.length < CHUNK_SIZE_BYTES ∧
    CHUNK_SIZE_BYTES * sendCount (drainBuffer buf).1 + (drainBuffer buf).2.length =
      buf.length := by
  intro n
  induction n with
  | zero =>
    intro buf hb
    have hb0 : buf.length = 0 := by omega
    have hlt : ¬ (CHUNK_SIZE_BYTES ≤ buf.length) := by
      rw [hb0]
      simp [CHUNK_SIZE_BYTES]
    rw [drainBuffer, dif_neg hlt]
    refine ⟨rfl, ?_, ?_⟩
    · show buf.length < CHUNK_SIZE_BYTES
      rw [hb0]
      simp [CHUNK_SIZE_BYTES]
    · show CHUNK_SIZE_BYTES * sendCount [] + buf.length = buf.length
      simp [sendCount]
  | succ n ih =>
    intro buf hb
    by_cases h : CHUNK_SIZE_BYTES ≤ buf.length
    · rw [drainBuffer, dif_pos h]
      have hdlen : (buf.drop CHUNK_SIZE_BYTES).length ≤ n := by
        simp only [List.length_drop]
        simp only [CHUNK_SIZE_BYTES] at h ⊢
        omega
      obtain ⟨ih1, ih2, ih3⟩ := ih (buf.drop CHUNK_SIZE_BYTES) hdlen
      have htake : (buf.take CHUNK_SIZE_BYTES).length = CHUNK_SIZE_BYTES := by
        simp only [List.length_take]
        omega
      refine ⟨?_, ih2, ?_⟩
      · simp [fullPaced, htake, ih1]
      · have hsc : sendCount (PacerEvent.send (buf.take CHUNK_SIZE_BYTES) ::
            PacerEvent.sleep CHUNK_SEND_DELAY_MS ::
            (drainBuffer (buf.drop CHUNK_SIZE_BYTES)).1) =
            sendCount (drainBuffer (buf.drop CHUNK_SIZE_BYTES)).1 + 1 := by
          simp [sendCount, List.countP_cons]
        show CHUNK_SIZE_BYTES * sendCount (PacerEvent.send (buf.take CHUNK_SIZE_BYTES) ::
            PacerEvent.sleep CHUNK_SEND_DELAY_MS ::
            (drainBuffer (buf.drop CHUNK_SIZE_BYTES)).1) +
          (drainBuffer (buf.drop CHUNK_SIZE_BYTES)).2.length = buf.length
        rw [hsc]
        simp only [List.length_drop] at ih3
        simp only [CHUNK_SIZE_BYTES] at ih3 h ⊢
        omega
    · rw [drainBuffer, dif_neg h]
      refine ⟨rfl, ?_, ?_⟩
      · show buf.length < CHUNK_SIZE_BYTES
        omega
      · show CHUNK_SIZE_BYTES * sendCount ([] : List PacerEvent) + buf.length = buf.length
        simp [sendCount]

lemma processChunk_inv (st : PacerState) (chunk : List Nat)
    (h1 : st.playbackStarted = false → st.events = [])
    (h2 : st.playbackStarted = true → jitterBufferSize ≤ pacerTotal st)
    (h3 : fullPaced st.events = true) :
    ((processChunk st chunk).playbackStarted = false → (processChunk st chunk).events = []) ∧
    ((processChunk st chunk).playbackStarted = true →
      jitterBufferSize ≤ pacerTotal (processChunk st chunk)) ∧
    fullPaced (processChunk st chunk).events = true := by
  by_cases hu : (st.pendingPcm ++ chunk).length / SAMPLES_PER_RESAMPLE > 0
  · set muLaw := pcmToMuLaw (resample24kTo8k ((st.pendingPcm ++ chunk).take
      ((st.pendingPcm ++ chunk).length / SAMPLES_PER_RESAMPLE * SAMPLES_PER_RESAMPLE)))
      with hmu
    by_cases hhold : st.playbackStarted = false ∧
        (st.pendingMuLaw ++ muLaw).length < jitterBufferSize
    · have hres : processChunk st chunk =
          { pendingPcm := (st.pendingPcm ++ chunk).drop
              ((st.pendingPcm ++ chunk).length / SAMPLES_PER_RESAMPLE * SAMPLES_PER_RESAMPLE),
            pendingMuLaw := st.pendingMuLaw ++ muLaw,
            playbackStarted := st.playbackStarted, events := st.events } := by
        simp only [processChunk, hmu]
        rw [if_pos hu, if_pos hhold]
      rw [hres]
      refine ⟨fun _ => h1 hhold.1, fun hcontra => ?_, h3⟩
      · rw [hhold.1] at hcontra
        cases hcontra
    · have hres : processChunk st chunk =
          { pendingPcm := (st.pendingPcm ++ chunk).drop
              ((st.pendingPcm ++ chunk).length / SAMPLES_PER_RESAMPLE * SAMPLES_PER_RESAMPLE),
            pendingMuLaw := (drainBuffer (st.pendingMuLaw ++ muLaw)).2,
            playbackStarted := true,
            events := st.events ++ (drainBuffer (st.pendingMuLaw ++ muLaw)).1 } := by
        simp only [processChunk, hmu]
        rw [if_pos hu, if_neg hhold]
      obtain ⟨hd1, hd2, hd3⟩ :=
        drainBuffer_spec (st.pendingMuLaw ++ muLaw).length (st.pendingMuLaw ++ muLaw)
          (le_refl _)
      rw [hres]
      refine ⟨fun hcontra => by simp at hcontra, fun _ => ?_, ?_⟩
      · show jitterBufferSize ≤ CHUNK_SIZE_BYTES * sendCount
          (st.events ++ (drainBuffer (st.pendingMuLaw ++ muLaw)).1) +
          (drainBuffer (st.pendingMuLaw ++ muLaw)).2.length
        have hcount : sendCount (st.events ++ (drainBuffer (st.pendingMuLaw ++ muLaw)).1) =
            sendCount st.events + sendCount (drainBuffer (st.pendingMuLaw ++ muLaw)).1 :=
          List.countP_append _ _ _
        rw [hcount, Nat.mul_add]
        rcases hps : st.playbackStarted with _ | _
        · have hlen : jitterBufferSize ≤ (st.pendingMuLaw ++ muLaw).length := by
            rcases Nat.lt_or_ge ((st.pendingMuLaw ++ muLaw).length) jitterBufferSize
              with hlt | hge
            · exact absurd ⟨hps, hlt⟩ hhold
            · exact hge
          have := hd3
          omega
        · have htot := h2 hps
          simp only [pacerTotal] at htot
          have := hd3
          simp only [List.length_append] at this
          omega
      · show fullPaced (st.events ++ (drainBuffer (st.pendingMuLaw ++ muLaw)).1) = true
        rw [fullPaced_append _ _ h3]
        exact hd1
  · have hres : processChunk st chunk =
        { st with pendingPcm := st.pendingPcm ++ chunk } := by
      simp only [processChunk]
      rw [if_neg hu]
    rw [hres]
    exact ⟨h1, h2, h3⟩

lemma foldl_pacer_inv (chunks : List (List Nat)) : ∀ st : PacerState,
    (st.playbackStarted = false → st.events = []) →
    (st.playbackStarted = true → jitterBufferSize ≤ pacerTotal st) →
    fullPaced st.events = true →
    ((chunks.foldl processChunk st).playbackStarted = false →
      (chunks.foldl processChunk st).events = []) ∧
    ((chunks.foldl processChunk st).playbackStarted = true →
      jitterBufferSize ≤ pacerTotal (chunks.foldl processChunk st)) ∧
    fullPaced (chunks.foldl processChunk st).events = true := by
  induction chunks with
  | nil => intro st h1 h2 h3; exact ⟨h1, h2, h3⟩
  | cons c rest ih =>
    intro st h1 h2 h3
    obtain ⟨g1, g2, g3⟩ := processChunk_inv st c h1 h2 h3
    simpa [List.foldl_cons] using ih (processChunk st c) g1 g2 g3

/-- C9: the streaming-TTS pacer emits only well-paced frames — every frame except
possibly the final flush frame is exactly `CHUNK_SIZE_BYTES` (160 bytes = 20 ms)
and is followed by a `CHUNK_SEND_DELAY_MS` (20 ms) sleep, with at most one final
shorter frame; the jitter buffer is `(8000/1000)·JITTER_BUFFER_MS = 800` bytes, and
during the streaming loop no frame is ever transmitted until at least 800 bytes of
mu-law audio have accumulated (framed-out plus still-buffered bytes). -/
theorem speakStreaming_jitter_pacing (chunks : List (List Nat)) :
    pacerOk (speakStreamingEvents chunks) = true ∧
    (jitterBufferSize = 800 ∧ CHUNK_SIZE_BYTES = 160 ∧ CHUNK_SEND_DELAY_MS = 20) ∧
    ((chunks.foldl processChunk initialPacerState).events = [] ∨
      jitterBufferSize ≤ pacerTotal (chunks.foldl processChunk initialPacerState)) := by
  obtain ⟨g1, g2, g3⟩ := foldl_pacer_inv chunks initialPacerState
    (fun _ => rfl) (fun hc => by cases hc) rfl
  refine ⟨?_, ⟨rfl, rfl, rfl⟩, ?_⟩
  · rw [speakStreamingEvents]
    obtain ⟨hd1, hd2, hd3⟩ := drainBuffer_spec
      (chunks.foldl processChunk initialPacerState).pendingMuLaw.length
      (chunks.foldl processChunk initialPacerState).pendingMuLaw (le_refl _)
    rw [List.append_assoc, pacerOk_append _ _ g3, pacerOk_append _ _ hd1]
    by_cases hz :
        (drainBuffer (chunks.foldl processChunk initialPacerState).pendingMuLaw).2.length > 0
    · rw [if_pos hz]
      simp only [pacerOk]
      simp only [decide_eq_true_eq]
      omega
    · rw [if_neg hz]
      rfl
  · rcases hps : (chunks.foldl processChunk initialPacerState).playbackStarted with _ | _
    · exact Or.inl (g1 hps)
    · exact Or.inr (g2 hps)

end CallMe
